import Mathlib

/-!
Verification of the per-period narration cache and playback subsystem of the
Spotlight page (`src/app/spotlight/page.tsx`).

The embedding models the React component's state as explicit data:

* JavaScript `Map<string, V>` values (the `summaries`, `playingStates`,
  `audioLoading`, `audioCache` and `audioRefs.current` maps) are association
  lists over `String` keys (`SMap`), mutated through the same
  copy-on-write updates the source performs inside `setState(prev => ...)`
  callbacks.
* Timestamps (`Date.getTime()` values) are integers counting milliseconds;
  the timezone offset is taken to be zero, so `setHours(0,0,0,0)` of "now"
  is flooring to a multiple of 86400000 and `toISOString().split('T')[0]`
  is the Gregorian calendar date of the floored day number.
* Fractional quantities (audio durations in seconds, playback positions,
  progress percentages) are rationals.
* Network I/O is an oracle argument: each fetch's outcome (`response.ok`
  with a body, a non-ok status, or a thrown network/timeout error) is an
  input, and the functions return which fetches were issued so that claims
  about the number of network calls are statements about that output.
* Asynchronous callbacks (the `loadedmetadata`, `timeupdate`, `ended` and
  `error` listeners of an `HTMLAudioElement`, and the `FileReader.onloadend`
  step) are separate step functions applied in the order the events fire.
  React function-component closure semantics are kept: a listener registered
  on an audio element captures the render-time value of plain `useState`
  variables (such as `isSeeking`), so that value is a parameter fixed at
  registration time, while `audio.currentTime` / `audio.duration` are read
  live when the event fires and are therefore event parameters.
-/

/-! ## Association-list model of `Map<string, V>` -/

/-- A JavaScript `Map` with string keys: an association list with at most one
binding per key (all operations preserve this, and `get?`/`insert`/`erase`
behave like `Map.get`/`Map.set`/`Map.delete` regardless). -/
abbrev SMap (α : Type) := List (String × α)

namespace SMap

def get? : SMap α → String → Option α
  | [], _ => none
  | (k', v) :: rest, k => if k' = k then some v else get? rest k

def insert : SMap α → String → α → SMap α
  | [], k, v => [(k, v)]
  | (k', v') :: rest, k, v =>
    if k' = k then (k, v) :: rest else (k', v') :: insert rest k v

def erase : SMap α → String → SMap α
  | [], _ => []
  | (k', v') :: rest, k =>
    if k' = k then erase rest k else (k', v') :: erase rest k

theorem get?_insert_self (m : SMap α) (k : String) (v : α) :
    (m.insert k v).get? k = some v := by
  induction m with
  | nil => simp [insert, get?]
  | cons hd tl ih =>
    obtain ⟨k', v'⟩ := hd
    by_cases h : k' = k <;> simp [insert, get?, h, ih]

theorem get?_insert_ne (m : SMap α) (k k' : String) (v : α) (h : k' ≠ k) :
    (m.insert k v).get? k' = m.get? k' := by
  have h' : ¬ k = k' := fun hh => h hh.symm
  induction m with
  | nil => simp [insert, get?, h']
  | cons hd tl ih =>
    obtain ⟨k₀, v₀⟩ := hd
    by_cases h0 : k₀ = k
    · subst h0
      simp [insert, get?, h']
    · simp only [insert, if_neg h0, get?]
      by_cases h1 : k₀ = k' <;> simp [h1, ih]

theorem get?_erase_self (m : SMap α) (k : String) :
    (m.erase k).get? k = none := by
  induction m with
  | nil => simp [erase, get?]
  | cons hd tl ih =>
    obtain ⟨k', v'⟩ := hd
    by_cases h : k' = k <;> simp [erase, get?, h, ih]

theorem get?_erase_ne (m : SMap α) (k k' : String) (h : k' ≠ k) :
    (m.erase k).get? k' = m.get? k' := by
  have h' : ¬ k = k' := fun hh => h hh.symm
  induction m with
  | nil => simp [erase, get?]
  | cons hd tl ih =>
    obtain ⟨k₀, v₀⟩ := hd
    by_cases h0 : k₀ = k
    · subst h0
      simp [erase, get?, h', ih]
    · simp only [erase, if_neg h0, get?]
      by_cases h1 : k₀ = k' <;> simp [h1, ih]

end SMap

/-! ## Calendar: `toISOString().split('T')[0]` of a millisecond timestamp -/

/-- Gregorian calendar date (year, month, day) of a day number counted from
1970-01-01, the civil-from-days algorithm with floor division. -/
def civilFromDays (z : Int) : Int × Int × Int :=
  let era : Int := (z + 719468) / 146097
  let doe : Int := (z + 719468) - era * 146097
  let yoe : Int := (doe - doe / 1460 + doe / 36524 - doe / 146096) / 365
  let y : Int := yoe + era * 400
  let doy : Int := doe - (365 * yoe + yoe / 4 - yoe / 100)
  let mp : Int := (5 * doy + 2) / 153
  let d : Int := doy - (153 * mp + 2) / 5 + 1
  let m : Int := mp + (if mp < 10 then 3 else -9)
  (y + (if m ≤ 2 then 1 else 0), m, d)

def pad2 (n : Int) : String :=
  if n < 10 then "0" ++ toString n else toString n

/-- The `YYYY-MM-DD` prefix of `new Date(ms).toISOString()` (UTC). -/
def isoDate (ms : Int) : String :=
  let days := ms / 86400000
  let ymd := civilFromDays days
  toString ymd.1 ++ "-" ++ pad2 ymd.2.1 ++ "-" ++ pad2 ymd.2.2

/-! ## Periods and summaries -/

/-- The `timeRange` state: `'week' | 'month'`. -/
inductive TimeRange where
  | week
  | month
deriving DecidableEq, Repr

def TimeRange.str : TimeRange → String
  | .week => "week"
  | .month => "month"

/-- One entry of `groupedMessages`: a calendar-bucketed message group, with
`startDate` / `endDate` as millisecond timestamps.  The messages themselves
only feed the request body, which no claim inspects. -/
structure PeriodGroup where
  startMs : Int
  endMs : Int
deriving DecidableEq, Repr

/-- The period key
`` `${group.startDate.toISOString().split('T')[0]}-${group.endDate.toISOString().split('T')[0]}-${timeRange}` ``. -/
def periodKey (g : PeriodGroup) (tr : TimeRange) : String :=
  isoDate g.startMs ++ "-" ++ isoDate g.endMs ++ "-" ++ tr.str

/-- The `PeriodSummary` record `{summary, cached, loading}`. -/
structure PeriodSummary where
  summary : String
  cached : Bool
  loading : Bool
deriving DecidableEq, Repr

/-- `todayStart`: `new Date()` with `setHours(0,0,0,0)` (zero timezone offset). -/
def dayStartMs (now : Int) : Int := (now / 86400000) * 86400000

/-- `todayEnd`: `new Date()` with `setHours(23,59,59,999)`. -/
def dayEndMs (now : Int) : Int := dayStartMs now + 86400000 - 1

/-- `isCurrentPeriod = group.startDate.getTime() <= todayEnd.getTime() &&
group.endDate.getTime() >= todayStart.getTime()`. -/
def isCurrentPeriod (now : Int) (g : PeriodGroup) : Bool :=
  decide (g.startMs ≤ dayEndMs now ∧ dayStartMs now ≤ g.endMs)

/-- The `setSummaries` update performed when a current period is skipped:
keep a non-loading entry unchanged, otherwise force `loading := false`
while preserving `existing?.summary || ''` and `existing?.cached || false`. -/
def skipCurrentUpdate (m : SMap PeriodSummary) (key : String) :
    SMap PeriodSummary :=
  match m.get? key with
  | some e => if e.loading = false then m else m.insert key ⟨e.summary, e.cached, false⟩
  | none => m.insert key ⟨"", false, false⟩

/-- The check-and-mark step of `fetchSummaries`: inside one `setSummaries`
functional update, `shouldFetch` is cleared only when
`existing && existing.summary && !existing.loading` (a populated, non-loading
entry); otherwise the entry is marked
`{summary: existing?.summary || '', cached: existing?.cached || false, loading: true}`.
Returns `(shouldFetch, updated summaries map)`. -/
def checkAndMark (m : SMap PeriodSummary) (key : String) :
    Bool × SMap PeriodSummary :=
  match m.get? key with
  | some e =>
    if e.summary ≠ "" ∧ e.loading = false then (false, m)
    else (true, m.insert key ⟨e.summary, e.cached, true⟩)
  | none => (true, m.insert key ⟨"", false, true⟩)

/-- Outcome of one `/v1/chat-summary` request: `response.ok` with a JSON
body, a non-ok HTTP status, or a thrown error (network failure, or the
60-second `AbortController` timeout rethrown as
`Error('Request timeout: Backend took too long to respond')`). -/
inductive FetchOutcome where
  | ok (summary : String) (cached : Bool)
  | httpError
  | netError (msg : String)
deriving DecidableEq, Repr

/-- The diagnostic text written by the catch branch of `fetchSummaries`. -/
def netErrorText (msg : String) : String :=
  "Error: " ++ msg ++ ". Please ensure the backend is running at http://localhost:8000"

/-- The `setSummaries` update applied when the summary request settles:
`response.ok` stores `{data.summary || '', data.cached || false, loading:false}`;
a non-ok status stores `{summary:'', cached:false, loading:false}`; a thrown
error stores the diagnostic text. -/
def applyFetchOutcome (m : SMap PeriodSummary) (key : String)
    (o : FetchOutcome) : SMap PeriodSummary :=
  match o with
  | .ok s c => m.insert key ⟨s, c, false⟩
  | .httpError => m.insert key ⟨"", false, false⟩
  | .netError msg => m.insert key ⟨netErrorText msg, false, false⟩

/-- The per-group loop body of `fetchSummaries`, iterated over
`groups`.  Returns the updated map and the list of groups for which a
`/v1/chat-summary` network call was issued, in order.  (The initial
`/health` probe is not a summary call and is not counted.) -/
def fetchLoop (now : Int) (tr : TimeRange) (oracle : PeriodGroup → FetchOutcome)
    (m : SMap PeriodSummary) :
    List PeriodGroup → SMap PeriodSummary × List PeriodGroup
  | [] => (m, [])
  | g :: gs =>
    let key := periodKey g tr
    if isCurrentPeriod now g then
      fetchLoop now tr oracle (skipCurrentUpdate m key) gs
    else
      let cm := checkAndMark m key
      if cm.1 then
        let r := fetchLoop now tr oracle (applyFetchOutcome cm.2 key (oracle g)) gs
        (r.1, g :: r.2)
      else
        fetchLoop now tr oracle cm.2 gs

/-- One invocation of `fetchSummaries(groups, userId)`: bail out on a falsy
`userId`, otherwise run the per-group loop. -/
def fetchSummaries (now : Int) (tr : TimeRange) (oracle : PeriodGroup → FetchOutcome)
    (groups : List PeriodGroup) (userId : String) (m : SMap PeriodSummary) :
    SMap PeriodSummary × List PeriodGroup :=
  if userId = "" then (m, [])
  else fetchLoop now tr oracle m groups

/-- The guard of the summary-fetch trigger effect: a group needs a summary
when `!existing || (!existing.summary && !existing.loading)`. -/
def needsSummary (m : SMap PeriodSummary) (key : String) : Bool :=
  match m.get? key with
  | none => true
  | some e => decide (e.summary = "" ∧ e.loading = false)

/-- The summaries map after `n` back-to-back invocations of
`fetchSummaries` over the same group list (each invocation starting from
the map the previous one left behind). -/
def iterateSummaries (now : Int) (tr : TimeRange)
    (oracle : PeriodGroup → FetchOutcome) (groups : List PeriodGroup)
    (userId : String) (m : SMap PeriodSummary) : Nat → SMap PeriodSummary
  | 0 => m
  | n + 1 =>
    (fetchSummaries now tr oracle groups userId
      (iterateSummaries now tr oracle groups userId m n)).1

/-! ## Playback subsystem -/

/-- One value of the `playingStates` map:
`{ isPlaying, isPaused, progress, duration }`. -/
structure PlayState where
  isPlaying : Bool
  isPaused : Bool
  progress : ℚ
  duration : ℚ
deriving DecidableEq, Repr

/-- The default used by `updatePlayingState` when no entry exists:
`{ isPlaying: false, isPaused: false, progress: 0, duration: 0 }`. -/
def defaultPlayState : PlayState := ⟨false, false, 0, 0⟩

/-- One value of the `audioCache` map (and of the durable `localStorage`
record): `{ dataUrl, duration }`. -/
structure CacheEntry where
  dataUrl : String
  duration : ℚ
deriving DecidableEq, Repr

/-- An `HTMLAudioElement` handle held in `audioRefs.current`: its source
payload, current playback position (seconds) and paused flag. -/
structure AudioEl where
  src : String
  currentTime : ℚ
  paused : Bool
deriving DecidableEq, Repr

/-- `new Audio(dataUrl)`: position 0, paused. -/
def newAudio (src : String) : AudioEl := ⟨src, 0, true⟩

/-- The whole audio-related component state: `playingStates`, `audioLoading`,
`isSeeking`, `audioCache`, `audioRefs.current`, plus the serialized
`localStorage.audioCache` record (`durable`). -/
structure PlaybackState where
  playingStates : SMap PlayState
  audioLoading : SMap Bool
  isSeeking : Option String
  audioCache : SMap CacheEntry
  audioRefs : SMap AudioEl
  durable : SMap CacheEntry
deriving DecidableEq, Repr

/-- `updatePlayingState(periodKey, updates)`: merge partial updates into the
current entry (or the default) with a functional `setPlayingStates`. -/
def updatePlayingState (m : SMap PlayState) (key : String)
    (f : PlayState → PlayState) : SMap PlayState :=
  m.insert key (f ((m.get? key).getD defaultPlayState))

/-- The resume guard at the top of `handlePlayAudio`:
`audio && currentState?.isPaused && !currentState.isPlaying`. -/
def resumeCond (st : PlaybackState) (key : String) : Bool :=
  (st.audioRefs.get? key).isSome &&
    (match st.playingStates.get? key with
     | some s => s.isPaused && !s.isPlaying
     | none => false)

/-- Which branch of `handlePlayAudio` runs: resume a paused handle, recreate
from the audio cache (`cachedAudio && cachedAudio.dataUrl`), or synthesize. -/
inductive PlayPath where
  | resume
  | cacheHit (e : CacheEntry)
  | synth
deriving DecidableEq, Repr

def playPath (st : PlaybackState) (key : String) : PlayPath :=
  if resumeCond st key then .resume
  else
    match st.audioCache.get? key with
    | some e => if e.dataUrl ≠ "" then .cacheHit e else .synth
    | none => .synth

/-- Number of text-to-speech network calls one `handlePlayAudio` invocation
issues: only the synthesis branch calls `/v1/text-to-speech`. -/
def playNetworkCalls (st : PlaybackState) (key : String) : Nat :=
  match playPath st key with
  | .synth => 1
  | _ => 0

/-- `audio.play()` on the handle stored for `key`. -/
def audioPlay (st : PlaybackState) (key : String) : PlaybackState :=
  match st.audioRefs.get? key with
  | some a => { st with audioRefs := st.audioRefs.insert key { a with paused := false } }
  | none => st

/-- The resume branch: `audio.play()` then
`updatePlayingState(periodKey, { isPlaying: true, isPaused: false })`. -/
def playResume (st : PlaybackState) (key : String) : PlaybackState :=
  let st1 := audioPlay st key
  { st1 with
    playingStates := updatePlayingState st1.playingStates key
      (fun s => { s with isPlaying := true, isPaused := false }) }

/-- The synchronous prefix of the cache-hit branch: set the per-card loading
flag, then `new Audio(cachedAudio.dataUrl)` stored into `audioRefs`. -/
def cacheHitStart (st : PlaybackState) (key : String) (e : CacheEntry) :
    PlaybackState :=
  { st with
    audioLoading := st.audioLoading.insert key true,
    audioRefs := st.audioRefs.insert key (newAudio e.dataUrl) }

/-- The cache-hit `loadedmetadata` listener: enter the playing state with
the duration taken from the cached entry (`cachedAudio.duration`), reset
progress, and clear the loading flag. -/
def onCachedLoadedMetadata (st : PlaybackState) (key : String)
    (e : CacheEntry) : PlaybackState :=
  { st with
    playingStates := updatePlayingState st.playingStates key
      (fun s => { s with isPlaying := true, isPaused := false,
                         duration := e.duration, progress := 0 }),
    audioLoading := st.audioLoading.erase key }

/-- The `timeupdate` listener (both branches of `handlePlayAudio` install the
same body): `if (isSeeking !== periodKey && audio.duration) progress :=
currentTime / duration * 100`.  `captured` is the value of the `isSeeking`
state variable in the render closure that registered the listener — later
`setIsSeeking` calls do not change it — while `ct` / `dur` are the element's
live `currentTime` / `duration` at the moment the event fires. -/
def onTimeUpdate (captured : Option String) (key : String) (ct dur : ℚ)
    (st : PlaybackState) : PlaybackState :=
  if captured ≠ some key ∧ dur ≠ 0 then
    { st with
      playingStates := updatePlayingState st.playingStates key
        (fun s => { s with progress := ct / dur * 100 }) }
  else st

/-- The `ended` listener: `{ isPlaying: false, isPaused: false, progress: 0 }`. -/
def onEnded (st : PlaybackState) (key : String) : PlaybackState :=
  { st with
    playingStates := updatePlayingState st.playingStates key
      (fun s => { s with isPlaying := false, isPaused := false, progress := 0 }) }

/-- The `error` listener: reset the session to non-playing and clear the
loading flag (no cache write happens on this path). -/
def onAudioError (st : PlaybackState) (key : String) : PlaybackState :=
  { st with
    playingStates := updatePlayingState st.playingStates key
      (fun s => { s with isPlaying := false, isPaused := false, progress := 0 }),
    audioLoading := st.audioLoading.erase key }

/-- The successful cache-hit flow of `handlePlayAudio`:
synchronous prefix, `loadedmetadata`, then `audio.play()`. -/
def playCachedOk (st : PlaybackState) (key : String) (e : CacheEntry) :
    PlaybackState :=
  audioPlay (onCachedLoadedMetadata (cacheHitStart st key e) key e) key

/-- The synchronous prefix of the synthesis branch: set the loading flag
and optimistically `updatePlayingState(periodKey, { isPlaying: true,
isPaused: false })` before the `/v1/text-to-speech` request is sent. -/
def synthStart (st : PlaybackState) (key : String) : PlaybackState :=
  { st with
    audioLoading := st.audioLoading.insert key true,
    playingStates := updatePlayingState st.playingStates key
      (fun s => { s with isPlaying := true, isPaused := false }) }

/-- Both synthesis failure branches (`!response.ok`, and the catch around the
fetch) perform the same updates: `{ isPlaying: false, isPaused: false }` and
clear the loading flag.  Neither touches `audioCache`, `audioRefs` or the
durable store. -/
def synthFail (st : PlaybackState) (key : String) : PlaybackState :=
  { st with
    playingStates := updatePlayingState st.playingStates key
      (fun s => { s with isPlaying := false, isPaused := false }),
    audioLoading := st.audioLoading.erase key }

/-- `FileReader.onloadend` on a successful response: `new Audio(base64data)`
stored into `audioRefs` (`payload` is the base64 data URL). -/
def synthOnloadend (st : PlaybackState) (key : String) (payload : String) :
    PlaybackState :=
  { st with audioRefs := st.audioRefs.insert key (newAudio payload) }

/-- The synthesis-path `loadedmetadata` listener: take the duration from the
element's own metadata, clear the loading flag, and write the new entry into
`audioCache` with a functional read-modify-write that is then serialized
wholesale into `localStorage` (the durable store). -/
def synthLoadedMetadata (st : PlaybackState) (key : String)
    (payload : String) (d : ℚ) : PlaybackState :=
  let cache' := st.audioCache.insert key ⟨payload, d⟩
  { st with
    playingStates := updatePlayingState st.playingStates key
      (fun s => { s with duration := d }),
    audioLoading := st.audioLoading.erase key,
    audioCache := cache',
    durable := cache' }

/-- Outcome of the synthesis branch: a decodable audio payload whose
metadata resolves with duration `d`; a payload whose decode fails (the
element fires `error` instead of `loadedmetadata`); a non-ok HTTP response;
or a thrown network error. -/
inductive SynthOutcome where
  | ok (payload : String) (d : ℚ)
  | decodeError (payload : String)
  | httpError
  | netError
deriving DecidableEq, Repr

/-- The synthesis branch of `handlePlayAudio`, run to quiescence for one
outcome of the text-to-speech request. -/
def runSynth (st : PlaybackState) (key : String) (o : SynthOutcome) :
    PlaybackState :=
  let st1 := synthStart st key
  match o with
  | .ok p d => audioPlay (synthLoadedMetadata (synthOnloadend st1 key p) key p d) key
  | .decodeError p => onAudioError (synthOnloadend st1 key p) key
  | .httpError => synthFail st1 key
  | .netError => synthFail st1 key

/-- `handlePauseAudio`: if a handle exists and is not paused, pause it and
set `{ isPlaying: false, isPaused: true }`. -/
def handlePauseAudio (st : PlaybackState) (key : String) : PlaybackState :=
  match st.audioRefs.get? key with
  | some a =>
    if a.paused = false then
      { st with
        audioRefs := st.audioRefs.insert key { a with paused := true },
        playingStates := updatePlayingState st.playingStates key
          (fun s => { s with isPlaying := false, isPaused := true }) }
    else st
  | none => st

/-- `handleStopAudio`: pause the handle, rewind it to 0 and delete it from
`audioRefs` (release), then `{ isPlaying: false, isPaused: false,
progress: 0 }`.  The speech-synthesis cancel branch is a no-op:
`speechSynthesisRef.current` is never assigned anywhere in the component. -/
def handleStopAudio (st : PlaybackState) (key : String) : PlaybackState :=
  let st1 := { st with audioRefs := st.audioRefs.erase key }
  { st1 with
    playingStates := updatePlayingState st1.playingStates key
      (fun s => { s with isPlaying := false, isPaused := false, progress := 0 }) }

/-- The clamped bar percentage computed by `handleSeek` and
`handleMouseMove`: `Math.max(0, Math.min(100, (x / rect.width) * 100))`
with `x = e.clientX - rect.left`. -/
def clampPercent (x w : ℚ) : ℚ :=
  max 0 (min 100 (x / w * 100))

/-- `handleSeek`: guarded by `audio && state?.duration`; set `isSeeking` to
this key, move the handle to `(percentage / 100) * state.duration`, and write
the clamped percentage into `progress`.  The trailing
`setTimeout(() => setIsSeeking(null), 100)` is modeled by
`seekTimeoutClear` firing later. -/
def handleSeek (st : PlaybackState) (key : String)
    (clientX rectLeft rectWidth : ℚ) : PlaybackState :=
  match st.audioRefs.get? key, st.playingStates.get? key with
  | some a, some s =>
    if s.duration ≠ 0 then
      let percentage := clampPercent (clientX - rectLeft) rectWidth
      { st with
        isSeeking := some key,
        audioRefs := st.audioRefs.insert key
          { a with currentTime := percentage / 100 * s.duration },
        playingStates := updatePlayingState st.playingStates key
          (fun t => { t with progress := percentage }) }
    else st
  | _, _ => st

/-- The 100 ms timeout scheduled by `handleSeek`. -/
def seekTimeoutClear (st : PlaybackState) : PlaybackState :=
  { st with isSeeking := none }

/-- `handleMouseMove`: only while `isSeeking === periodKey` (read fresh from
the current render, unlike the audio listeners), same clamped move as
`handleSeek` but without touching `isSeeking`. -/
def handleMouseMove (st : PlaybackState) (key : String)
    (clientX rectLeft rectWidth : ℚ) : PlaybackState :=
  if st.isSeeking = some key then
    match st.audioRefs.get? key, st.playingStates.get? key with
    | some a, some s =>
      if s.duration ≠ 0 then
        let percentage := clampPercent (clientX - rectLeft) rectWidth
        { st with
          audioRefs := st.audioRefs.insert key
            { a with currentTime := percentage / 100 * s.duration },
          playingStates := updatePlayingState st.playingStates key
            (fun t => { t with progress := percentage }) }
      else st
    | _, _ => st
  else st

/-- The mount-time effect that loads the durable audio cache: a missing
`localStorage.audioCache` record leaves the initial empty map; a record that
`JSON.parse` rejects is caught (a console warning, nothing rethrown) and
likewise leaves the empty map; a valid record populates the map entrywise. -/
def loadAudioCacheOnMount (stored : Option String)
    (parse : String → Except String (List (String × CacheEntry))) :
    SMap CacheEntry :=
  match stored with
  | none => []
  | some raw =>
    match parse raw with
    | .ok entries => entries.foldl (fun m kv => m.insert kv.1 kv.2) []
    | .error _ => []

/-! ## Helper lemmas: summary subsystem -/

/-- The "pending — will be available after period closes" entry the skip
branch leaves for a fresh current period. -/
def pendingEntry : PeriodSummary := ⟨"", false, false⟩

theorem mem_isCurrentPeriod (now : Int) (g : PeriodGroup)
    (h1 : g.startMs ≤ now) (h2 : now ≤ g.endMs) :
    isCurrentPeriod now g = true := by
  simp only [isCurrentPeriod, decide_eq_true_eq, dayEndMs, dayStartMs]
  omega

theorem fetchLoop_nil (now : Int) (tr : TimeRange) (oracle) (m) :
    fetchLoop now tr oracle m [] = (m, []) := rfl

theorem fetchLoop_cons_current (now : Int) (tr : TimeRange) (oracle)
    (m) (g : PeriodGroup) (gs : List PeriodGroup)
    (h : isCurrentPeriod now g = true) :
    fetchLoop now tr oracle m (g :: gs) =
      fetchLoop now tr oracle (skipCurrentUpdate m (periodKey g tr)) gs := by
  simp [fetchLoop, h]

theorem fetchLoop_cons_fetch (now : Int) (tr : TimeRange) (oracle)
    (m) (g : PeriodGroup) (gs : List PeriodGroup)
    (h : isCurrentPeriod now g = false)
    (hf : (checkAndMark m (periodKey g tr)).1 = true) :
    fetchLoop now tr oracle m (g :: gs) =
      ((fetchLoop now tr oracle
          (applyFetchOutcome (checkAndMark m (periodKey g tr)).2
            (periodKey g tr) (oracle g)) gs).1,
       g :: (fetchLoop now tr oracle
          (applyFetchOutcome (checkAndMark m (periodKey g tr)).2
            (periodKey g tr) (oracle g)) gs).2) := by
  simp [fetchLoop, h, hf]

theorem fetchLoop_cons_skip (now : Int) (tr : TimeRange) (oracle)
    (m) (g : PeriodGroup) (gs : List PeriodGroup)
    (h : isCurrentPeriod now g = false)
    (hf : (checkAndMark m (periodKey g tr)).1 = false) :
    fetchLoop now tr oracle m (g :: gs) =
      fetchLoop now tr oracle (checkAndMark m (periodKey g tr)).2 gs := by
  simp [fetchLoop, h, hf]

/-- Every group for which the loop issued a call is a non-current member of
the iterated list. -/
theorem fetchLoop_calls_mem (now : Int) (tr : TimeRange) (oracle) :
    ∀ (gs : List PeriodGroup) (m) (g' : PeriodGroup),
      g' ∈ (fetchLoop now tr oracle m gs).2 →
      g' ∈ gs ∧ isCurrentPeriod now g' = false := by
  intro gs
  induction gs with
  | nil => intro m g' h; simp [fetchLoop_nil] at h
  | cons g gs ih =>
    intro m g' h
    by_cases hc : isCurrentPeriod now g
    · rw [fetchLoop_cons_current now tr oracle m g gs hc] at h
      obtain ⟨h1, h2⟩ := ih _ _ h
      exact ⟨List.mem_cons_of_mem _ h1, h2⟩
    · rw [Bool.not_eq_true] at hc
      by_cases hf : (checkAndMark m (periodKey g tr)).1
      · rw [fetchLoop_cons_fetch now tr oracle m g gs hc hf] at h
        rcases List.mem_cons.mp h with h1 | h1
        · subst h1
          exact ⟨List.mem_cons_self _ _, hc⟩
        · obtain ⟨h2, h3⟩ := ih _ _ h1
          exact ⟨List.mem_cons_of_mem _ h2, h3⟩
      · rw [Bool.not_eq_true] at hf
        rw [fetchLoop_cons_skip now tr oracle m g gs hc hf] at h
        obtain ⟨h1, h2⟩ := ih _ _ h
        exact ⟨List.mem_cons_of_mem _ h1, h2⟩

theorem skipCurrentUpdate_get_ne (m : SMap PeriodSummary) (key K : String)
    (h : K ≠ key) : (skipCurrentUpdate m key).get? K = m.get? K := by
  unfold skipCurrentUpdate
  cases hm : m.get? key with
  | none => exact SMap.get?_insert_ne _ _ _ _ h
  | some e =>
    by_cases hl : e.loading = false
    · simp [hl]
    · simp [hl, SMap.get?_insert_ne _ _ _ _ h]

theorem checkAndMark_get_ne (m : SMap PeriodSummary) (key K : String)
    (h : K ≠ key) : (checkAndMark m key).2.get? K = m.get? K := by
  unfold checkAndMark
  cases hm : m.get? key with
  | none => exact SMap.get?_insert_ne _ _ _ _ h
  | some e =>
    by_cases hc : e.summary ≠ "" ∧ e.loading = false
    · simp [hc]
    · simp [hc, SMap.get?_insert_ne _ _ _ _ h]

theorem applyFetchOutcome_get_ne (m : SMap PeriodSummary) (key K : String)
    (o : FetchOutcome) (h : K ≠ key) :
    (applyFetchOutcome m key o).get? K = m.get? K := by
  cases o <;> simp [applyFetchOutcome, SMap.get?_insert_ne _ _ _ _ h]

theorem skipCurrentUpdate_pending_of_none (m : SMap PeriodSummary)
    (key : String) (hm : m.get? key = none) :
    (skipCurrentUpdate m key).get? key = some pendingEntry := by
  unfold skipCurrentUpdate
  rw [hm]
  exact SMap.get?_insert_self _ _ _

theorem skipCurrentUpdate_pending_of_pending (m : SMap PeriodSummary)
    (key : String) (hm : m.get? key = some pendingEntry) :
    (skipCurrentUpdate m key).get? key = some pendingEntry := by
  unfold skipCurrentUpdate
  rw [hm]
  simpa [pendingEntry] using hm

/-- Once the entry for `K` is the pending record and every remaining
same-key group is current, the loop keeps it pending. -/
theorem fetchLoop_pending_preserved (now : Int) (tr : TimeRange) (oracle) :
    ∀ (gs : List PeriodGroup) (m) (K : String),
      (∀ g' ∈ gs, periodKey g' tr = K → isCurrentPeriod now g' = true) →
      m.get? K = some pendingEntry →
      (fetchLoop now tr oracle m gs).1.get? K = some pendingEntry := by
  intro gs
  induction gs with
  | nil => intro m K _ hp; simpa [fetchLoop_nil] using hp
  | cons g gs ih =>
    intro m K hall hp
    by_cases hk : periodKey g tr = K
    · have hc : isCurrentPeriod now g = true :=
        hall g (List.mem_cons_self _ _) hk
      rw [fetchLoop_cons_current now tr oracle m g gs hc]
      refine ih _ _ (fun g' h1 h2 => hall g' (List.mem_cons_of_mem _ h1) h2) ?_
      rw [hk]
      exact skipCurrentUpdate_pending_of_pending m K hp
    · have hk' : K ≠ periodKey g tr := fun hh => hk hh.symm
      have hall' : ∀ g' ∈ gs, periodKey g' tr = K → isCurrentPeriod now g' = true :=
        fun g' h1 h2 => hall g' (List.mem_cons_of_mem _ h1) h2
      by_cases hc : isCurrentPeriod now g
      · rw [fetchLoop_cons_current now tr oracle m g gs hc]
        exact ih _ _ hall' (by rw [skipCurrentUpdate_get_ne m _ K hk']; exact hp)
      · rw [Bool.not_eq_true] at hc
        by_cases hf : (checkAndMark m (periodKey g tr)).1
        · rw [fetchLoop_cons_fetch now tr oracle m g gs hc hf]
          refine ih _ _ hall' ?_
          rw [applyFetchOutcome_get_ne _ _ K _ hk', checkAndMark_get_ne m _ K hk']
          exact hp
        · rw [Bool.not_eq_true] at hf
          rw [fetchLoop_cons_skip now tr oracle m g gs hc hf]
          exact ih _ _ hall' (by rw [checkAndMark_get_ne m _ K hk']; exact hp)

/-- If `g` occurs in the list, all groups sharing its key are current, and
its key is initially absent or pending, the loop ends with the pending
record at `g`'s key. -/
theorem fetchLoop_pending_reached (now : Int) (tr : TimeRange) (oracle) :
    ∀ (gs : List PeriodGroup) (m) (g : PeriodGroup),
      g ∈ gs →
      (∀ g' ∈ gs, periodKey g' tr = periodKey g tr → isCurrentPeriod now g' = true) →
      (m.get? (periodKey g tr) = none ∨ m.get? (periodKey g tr) = some pendingEntry) →
      (fetchLoop now tr oracle m gs).1.get? (periodKey g tr) = some pendingEntry := by
  intro gs
  induction gs with
  | nil => intro m g h; simp at h
  | cons a gs ih =>
    intro m g hg hall hinit
    have hall' : ∀ g' ∈ gs, periodKey g' tr = periodKey g tr → isCurrentPeriod now g' = true :=
      fun g' h1 h2 => hall g' (List.mem_cons_of_mem _ h1) h2
    by_cases hk : periodKey a tr = periodKey g tr
    · have hc : isCurrentPeriod now a = true :=
        hall a (List.mem_cons_self _ _) hk
      rw [fetchLoop_cons_current now tr oracle m a gs hc]
      have hpend : (skipCurrentUpdate m (periodKey a tr)).get? (periodKey g tr) =
          some pendingEntry := by
        rw [hk]
        rcases hinit with h | h
        · exact skipCurrentUpdate_pending_of_none m _ h
        · exact skipCurrentUpdate_pending_of_pending m _ h
      exact fetchLoop_pending_preserved now tr oracle gs _ _ hall' hpend
    · have hk' : periodKey g tr ≠ periodKey a tr := fun hh => hk hh.symm
      have hg' : g ∈ gs := by
        rcases List.mem_cons.mp hg with h | h
        · exact absurd (h ▸ rfl) hk
        · exact h
      by_cases hc : isCurrentPeriod now a
      · rw [fetchLoop_cons_current now tr oracle m a gs hc]
        refine ih _ g hg' hall' ?_
        rw [skipCurrentUpdate_get_ne m _ _ hk']
        exact hinit
      · rw [Bool.not_eq_true] at hc
        by_cases hf : (checkAndMark m (periodKey a tr)).1
        · rw [fetchLoop_cons_fetch now tr oracle m a gs hc hf]
          refine ih _ g hg' hall' ?_
          rw [applyFetchOutcome_get_ne _ _ _ _ hk', checkAndMark_get_ne m _ _ hk']
          exact hinit
        · rw [Bool.not_eq_true] at hf
          rw [fetchLoop_cons_skip now tr oracle m a gs hc hf]
          refine ih _ g hg' hall' ?_
          rw [checkAndMark_get_ne m _ _ hk']
          exact hinit

/-! ## Claims about the summary fetcher -/

/-- Claim C5 (confirmed): a period group whose interval `[startMs, endMs]`
contains the current time is never the subject of a summary network call —
the first conjunct holds for an invocation started from an arbitrary
summaries map, so it covers every invocation of `fetchSummaries`, however
many times it runs and whatever the earlier ones did; and — when it is the
only group with its key and no entry exists before the first invocation —
after every invocation (the `(n+1)`-st, for every `n`) its Summary entry is
the non-loading pending state `{summary:'', cached:false, loading:false}`
rather than an error. -/
theorem currentPeriod_never_fetched
    (now : Int) (tr : TimeRange) (oracle : PeriodGroup → FetchOutcome)
    (groups : List PeriodGroup) (userId : String) (m : SMap PeriodSummary)
    (g : PeriodGroup)
    (huid : userId ≠ "") (hmem : g ∈ groups)
    (h1 : g.startMs ≤ now) (h2 : now ≤ g.endMs)
    (huniq : ∀ g' ∈ groups, periodKey g' tr = periodKey g tr → g' = g)
    (hinit : m.get? (periodKey g tr) = none) :
    (∀ m' : SMap PeriodSummary,
      g ∉ (fetchSummaries now tr oracle groups userId m').2) ∧
    (∀ n : Nat,
      (iterateSummaries now tr oracle groups userId m (n + 1)).get?
        (periodKey g tr) = some ⟨"", false, false⟩) := by
  have hcur : isCurrentPeriod now g = true := mem_isCurrentPeriod now g h1 h2
  constructor
  · intro m'
    unfold fetchSummaries
    rw [if_neg huid]
    intro hcall
    have h := (fetchLoop_calls_mem now tr oracle groups m' g hcall).2
    rw [hcur] at h
    exact Bool.true_eq_false.mp h
  · have hall : ∀ g' ∈ groups, periodKey g' tr = periodKey g tr →
        isCurrentPeriod now g' = true := by
      intro g' hmem' hkey
      rw [huniq g' hmem' hkey]
      exact hcur
    have step : ∀ m' : SMap PeriodSummary,
        m'.get? (periodKey g tr) = none ∨
          m'.get? (periodKey g tr) = some pendingEntry →
        (fetchSummaries now tr oracle groups userId m').1.get? (periodKey g tr) =
          some pendingEntry := by
      intro m' hm'
      unfold fetchSummaries
      rw [if_neg huid]
      exact fetchLoop_pending_reached now tr oracle groups m' g hmem hall hm'
    intro n
    induction n with
    | zero => exact step m (Or.inl hinit)
    | succ k ih => exact step _ (Or.inr ih)

/-- Witness for C5: three back-to-back invocations of a concrete one-group
run containing "now": the third invocation still issues no summary call,
and the map after it still holds the pending entry. -/
theorem currentPeriod_never_fetched_witness :
    (⟨1699900000000, 1700000000001⟩ : PeriodGroup) ∉
      (fetchSummaries 1700000000000 .week (fun _ => .ok "s" true)
        [⟨1699900000000, 1700000000001⟩] "user"
        (iterateSummaries 1700000000000 .week (fun _ => .ok "s" true)
          [⟨1699900000000, 1700000000001⟩] "user" [] 2)).2 ∧
    (iterateSummaries 1700000000000 .week (fun _ => .ok "s" true)
        [⟨1699900000000, 1700000000001⟩] "user" [] 3).get?
      (periodKey ⟨1699900000000, 1700000000001⟩ .week) = some ⟨"", false, false⟩ := by
  have h := currentPeriod_never_fetched 1700000000000 .week (fun _ => .ok "s" true)
    [⟨1699900000000, 1700000000001⟩] "user" [] ⟨1699900000000, 1700000000001⟩
    (by decide) (by decide) (by decide) (by decide)
    (by decide) (by decide)
  exact ⟨h.1 _, h.2 2⟩

/-- Claim C1 counterexample (refutes the claim as stated): an invocation of
`fetchSummaries` that observes a currently-loading entry (the exact
`{summary:'', cached:false, loading:true}` marker a concurrent first
invocation has just written before its fetch resolves) does NOT skip: its
`shouldFetch` stays true and it issues a second summary network call for the
same period, so two invocations in quick succession issue two calls, not at
most one. -/
theorem dedupOnLoading_violation :
    (checkAndMark [] (periodKey ⟨0, 86399999⟩ .week)).2.get?
        (periodKey ⟨0, 86399999⟩ .week) = some ⟨"", false, true⟩ ∧
    (checkAndMark (checkAndMark [] (periodKey ⟨0, 86399999⟩ .week)).2
        (periodKey ⟨0, 86399999⟩ .week)).1 = true ∧
    (fetchSummaries 1700000000000 .week (fun _ => .ok "done" false)
        [⟨0, 86399999⟩] "user"
        (checkAndMark [] (periodKey ⟨0, 86399999⟩ .week)).2).2 =
      [⟨0, 86399999⟩] := by
  decide

/-- Claim C1 (amended): an invocation marks `loading := true` (preserving
the previous text and cached flag) before issuing its fetch, but it skips
the fetch if and only if a populated (non-empty text) and non-loading entry
exists for the key; an invocation that observes a merely in-progress
(loading, empty-text) entry re-issues the fetch, so deduplication against
in-flight requests is not provided by `fetchSummaries` itself.  Once a fetch
has populated a non-empty summary, later invocations do skip. -/
theorem checkAndMark_dedup_amended (m : SMap PeriodSummary) (key : String)
    (s : String) (c : Bool) :
    ((checkAndMark m key).1 = false ↔
      ∃ e, m.get? key = some e ∧ e.summary ≠ "" ∧ e.loading = false) ∧
    ((checkAndMark m key).1 = true →
      (checkAndMark m key).2.get? key =
        some ⟨((m.get? key).getD pendingEntry).summary,
              ((m.get? key).getD pendingEntry).cached, true⟩) ∧
    (s ≠ "" → (checkAndMark (applyFetchOutcome m key (.ok s c)) key).1 = false) := by
  refine ⟨?_, ?_, ?_⟩
  · unfold checkAndMark
    cases hm : m.get? key with
    | none => simp
    | some e =>
      by_cases hc : e.summary ≠ "" ∧ e.loading = false
      · simp only [if_pos hc]
        simp [hc]
      · simp only [if_neg hc]
        simp only [not_and_or, ne_eq, not_not] at hc
        constructor
        · intro h
          simp at h
        · rintro ⟨e', he', h1, h2⟩
          injection he' with he''
          subst he''
          rcases hc with h | h
          · exact absurd h h1
          · exact absurd h2 h
  · unfold checkAndMark
    cases hm : m.get? key with
    | none =>
      intro _
      simpa [pendingEntry] using SMap.get?_insert_self m key ⟨"", false, true⟩
    | some e =>
      by_cases hc : e.summary ≠ "" ∧ e.loading = false
      · simp [if_pos hc]
      · simp only [if_neg hc]
        intro _
        simpa using SMap.get?_insert_self m key ⟨e.summary, e.cached, true⟩
  · intro hs
    unfold checkAndMark
    rw [show (applyFetchOutcome m key (.ok s c)).get? key = some ⟨s, c, false⟩ from
      SMap.get?_insert_self m key ⟨s, c, false⟩]
    simp [hs]

/-- Witness for the amended C1 at concrete inputs. -/
theorem checkAndMark_dedup_amended_witness :
    SMap.get? (checkAndMark ([] : SMap PeriodSummary) "k").2 "k" =
        some ⟨((SMap.get? ([] : SMap PeriodSummary) "k").getD pendingEntry).summary,
              ((SMap.get? ([] : SMap PeriodSummary) "k").getD pendingEntry).cached, true⟩ ∧
    (checkAndMark (applyFetchOutcome [] "k" (.ok "text" false)) "k").1 = false :=
  ⟨(checkAndMark_dedup_amended [] "k" "text" false).2.1 (by decide),
   (checkAndMark_dedup_amended [] "k" "text" false).2.2 (by decide)⟩

/-- Claim C3 counterexample (refutes the claim as stated): when the summary
request settles with a non-success HTTP status, the entry is replaced with
`{summary:'', cached:false, loading:false}` — the empty string, not a
human-readable diagnostic — and because the stored text is empty, both the
effect guard (`needsSummary`) and a subsequent `fetchSummaries` invocation
treat the key as missing and re-issue the network call automatically. -/
theorem httpFailure_refetch_violation :
    (fetchSummaries 1700000000000 .week (fun _ => .httpError)
        [⟨0, 86399999⟩] "user" []).2 = [⟨0, 86399999⟩] ∧
    (fetchSummaries 1700000000000 .week (fun _ => .httpError)
        [⟨0, 86399999⟩] "user" []).1.get? (periodKey ⟨0, 86399999⟩ .week) =
      some ⟨"", false, false⟩ ∧
    needsSummary
      (fetchSummaries 1700000000000 .week (fun _ => .httpError)
        [⟨0, 86399999⟩] "user" []).1 (periodKey ⟨0, 86399999⟩ .week) = true ∧
    (fetchSummaries 1700000000000 .week (fun _ => .httpError) [⟨0, 86399999⟩] "user"
      (fetchSummaries 1700000000000 .week (fun _ => .httpError)
        [⟨0, 86399999⟩] "user" []).1).2 = [⟨0, 86399999⟩] := by
  decide

/-- Claim C3 (amended): on a thrown failure (network error or the
60-second client timeout) the entry is replaced with `loading=false`,
`cached=false` and the human-readable diagnostic
`Error: <message>. Please ensure the backend is running at
http://localhost:8000`, and — the diagnostic being non-empty — neither the
effect guard nor a later `fetchSummaries` invocation re-fetches it; on a
non-success HTTP status, however, the entry is replaced with
`loading=false`, `cached=false` and the empty string as its text, which
subsequent invocations do re-fetch automatically. -/
theorem fetchFailure_amended (m : SMap PeriodSummary) (key msg : String) :
    (applyFetchOutcome m key (.netError msg)).get? key =
      some ⟨netErrorText msg, false, false⟩ ∧
    netErrorText msg ≠ "" ∧
    (checkAndMark (applyFetchOutcome m key (.netError msg)) key).1 = false ∧
    needsSummary (applyFetchOutcome m key (.netError msg)) key = false ∧
    (applyFetchOutcome m key .httpError).get? key = some ⟨"", false, false⟩ ∧
    (checkAndMark (applyFetchOutcome m key .httpError) key).1 = true ∧
    needsSummary (applyFetchOutcome m key .httpError) key = true := by
  have hget : (applyFetchOutcome m key (.netError msg)).get? key =
      some ⟨netErrorText msg, false, false⟩ :=
    SMap.get?_insert_self m key ⟨netErrorText msg, false, false⟩
  have hget' : (applyFetchOutcome m key .httpError).get? key =
      some ⟨"", false, false⟩ :=
    SMap.get?_insert_self m key ⟨"", false, false⟩
  have hne : netErrorText msg ≠ "" := by
    intro h
    have hlen := congrArg String.length h
    have l1 : ("Error: " : String).length = 7 := by decide
    have l2 : (". Please ensure the backend is running at http://localhost:8000" :
        String).length = 63 := by decide
    have l3 : ("" : String).length = 0 := by decide
    simp only [netErrorText, String.length_append, l1, l2, l3] at hlen
    omega
  refine ⟨hget, hne, ?_, ?_, hget', ?_, ?_⟩
  · unfold checkAndMark
    rw [hget]
    simp [hne]
  · unfold needsSummary
    rw [hget]
    simp [hne]
  · unfold checkAndMark
    rw [hget']
    simp
  · unfold needsSummary
    rw [hget']
    simp

/-! ## Claims about the playback subsystem -/

/-- Claim C2 (confirmed): when a NarrationTrack for `key` is present in the
audio cache (with a non-empty payload) and the request is not a resume of a
paused handle, `handlePlayAudio` takes the cache-hit branch: it issues zero
text-to-speech network calls, reconstructs the audio handle from the stored
`dataUrl`, takes the duration from the stored cache metadata, and the
session reaches the Playing state (`isPlaying = true`, `isPaused = false`)
using only the cached data — the cache and durable store are untouched. -/
theorem playCached_zero_network (st : PlaybackState) (key : String)
    (e : CacheEntry)
    (hres : resumeCond st key = false)
    (hcache : st.audioCache.get? key = some e)
    (hurl : e.dataUrl ≠ "") :
    playPath st key = .cacheHit e ∧
    playNetworkCalls st key = 0 ∧
    (playCachedOk st key e).playingStates.get? key =
      some ⟨true, false, 0, e.duration⟩ ∧
    ((playCachedOk st key e).audioRefs.get? key).map AudioEl.src =
      some e.dataUrl ∧
    (playCachedOk st key e).audioLoading.get? key = none ∧
    (playCachedOk st key e).audioCache = st.audioCache ∧
    (playCachedOk st key e).durable = st.durable := by
  have hpath : playPath st key = .cacheHit e := by
    simp [playPath, hres, hcache, hurl]
  have hrefs2 : (onCachedLoadedMetadata (cacheHitStart st key e) key e).audioRefs.get? key
      = some (newAudio e.dataUrl) := by
    simp [onCachedLoadedMetadata, cacheHitStart, SMap.get?_insert_self]
  refine ⟨hpath, by simp [playNetworkCalls, hpath], ?_, ?_, ?_, ?_, ?_⟩
  · simp [playCachedOk, audioPlay, hrefs2, onCachedLoadedMetadata, cacheHitStart,
      updatePlayingState, SMap.get?_insert_self]
  · simp [playCachedOk, audioPlay, hrefs2, onCachedLoadedMetadata, cacheHitStart,
      SMap.get?_insert_self, newAudio]
  · simp [playCachedOk, audioPlay, onCachedLoadedMetadata, cacheHitStart,
      SMap.get?_insert_self, SMap.get?_erase_self]
  · simp [playCachedOk, audioPlay, onCachedLoadedMetadata, cacheHitStart,
      SMap.get?_insert_self]
  · simp [playCachedOk, audioPlay, onCachedLoadedMetadata, cacheHitStart,
      SMap.get?_insert_self]

/-- Witness for C2 at a concrete state holding a cached track. -/
theorem playCached_zero_network_witness :
    playPath ⟨[], [], none, [("k", ⟨"data:audio/mpeg;base64,AAAA", 10⟩)], [],
        [("k", ⟨"data:audio/mpeg;base64,AAAA", 10⟩)]⟩ "k" =
      .cacheHit ⟨"data:audio/mpeg;base64,AAAA", 10⟩ ∧
    playNetworkCalls ⟨[], [], none, [("k", ⟨"data:audio/mpeg;base64,AAAA", 10⟩)], [],
        [("k", ⟨"data:audio/mpeg;base64,AAAA", 10⟩)]⟩ "k" = 0 ∧
    (playCachedOk ⟨[], [], none, [("k", ⟨"data:audio/mpeg;base64,AAAA", 10⟩)], [],
        [("k", ⟨"data:audio/mpeg;base64,AAAA", 10⟩)]⟩ "k"
        ⟨"data:audio/mpeg;base64,AAAA", 10⟩).playingStates.get? "k" =
      some ⟨true, false, 0, (10 : ℚ)⟩ ∧
    ((playCachedOk ⟨[], [], none, [("k", ⟨"data:audio/mpeg;base64,AAAA", 10⟩)], [],
        [("k", ⟨"data:audio/mpeg;base64,AAAA", 10⟩)]⟩ "k"
        ⟨"data:audio/mpeg;base64,AAAA", 10⟩).audioRefs.get? "k").map AudioEl.src =
      some "data:audio/mpeg;base64,AAAA" := by
  have h := playCached_zero_network
    ⟨[], [], none, [("k", ⟨"data:audio/mpeg;base64,AAAA", 10⟩)], [],
      [("k", ⟨"data:audio/mpeg;base64,AAAA", 10⟩)]⟩ "k"
    ⟨"data:audio/mpeg;base64,AAAA", 10⟩ rfl rfl (by decide)
  exact ⟨h.1, h.2.1, h.2.2.1, h.2.2.2.1⟩

/-- Claim C6 (confirmed): when no track is cached for `key` and the request
is not a resume, `handlePlayAudio` synthesizes; if the synthesis fails —
non-ok HTTP response, thrown network error, or a decode error on the
returned audio — then no entry for `key` is written to the in-memory audio
cache or the durable store, the session ends non-playing
(`isPlaying = false`, `isPaused = false`), and a subsequent play request for
the same key takes the synthesis branch again, issuing one fresh
text-to-speech call rather than reusing a poisoned entry. -/
theorem synthFailure_no_poison (st : PlaybackState) (key : String)
    (o : SynthOutcome)
    (hmiss : st.audioCache.get? key = none)
    (hres : resumeCond st key = false)
    (hfail : o = .httpError ∨ o = .netError ∨ ∃ p, o = .decodeError p) :
    playPath st key = .synth ∧
    (runSynth st key o).audioCache.get? key = none ∧
    (runSynth st key o).durable = st.durable ∧
    (∃ s, (runSynth st key o).playingStates.get? key = some s ∧
      s.isPlaying = false ∧ s.isPaused = false) ∧
    playPath (runSynth st key o) key = .synth ∧
    playNetworkCalls (runSynth st key o) key = 1 := by
  have hpath : playPath st key = .synth := by
    simp [playPath, hres, hmiss]
  have main : ∀ st' : PlaybackState,
      st'.audioCache = st.audioCache →
      (∃ s, st'.playingStates.get? key = some s ∧
        s.isPlaying = false ∧ s.isPaused = false) →
      playPath st' key = .synth ∧ playNetworkCalls st' key = 1 := by
    intro st' hc ⟨s, hgs, hp, hq⟩
    have hrc : resumeCond st' key = false := by
      simp [resumeCond, hgs, hq]
    have : playPath st' key = .synth := by
      simp [playPath, hrc, hc, hmiss]
    exact ⟨this, by simp [playNetworkCalls, this]⟩
  rcases hfail with rfl | rfl | ⟨p, rfl⟩
  · have hgs : (runSynth st key .httpError).playingStates.get? key = some
        ⟨false, false, ((st.playingStates.get? key).getD defaultPlayState).progress,
          ((st.playingStates.get? key).getD defaultPlayState).duration⟩ := by
      simp [runSynth, synthFail, synthStart, updatePlayingState, SMap.get?_insert_self]
    have hm := main (runSynth st key .httpError) rfl ⟨_, hgs, rfl, rfl⟩
    exact ⟨hpath, hmiss, rfl, ⟨_, hgs, rfl, rfl⟩, hm.1, hm.2⟩
  · have hgs : (runSynth st key .netError).playingStates.get? key = some
        ⟨false, false, ((st.playingStates.get? key).getD defaultPlayState).progress,
          ((st.playingStates.get? key).getD defaultPlayState).duration⟩ := by
      simp [runSynth, synthFail, synthStart, updatePlayingState, SMap.get?_insert_self]
    have hm := main (runSynth st key .netError) rfl ⟨_, hgs, rfl, rfl⟩
    exact ⟨hpath, hmiss, rfl, ⟨_, hgs, rfl, rfl⟩, hm.1, hm.2⟩
  · have hgs : (runSynth st key (.decodeError p)).playingStates.get? key = some
        ⟨false, false, 0,
          ((st.playingStates.get? key).getD defaultPlayState).duration⟩ := by
      simp [runSynth, onAudioError, synthOnloadend, synthStart,
        updatePlayingState, SMap.get?_insert_self]
    have hm := main (runSynth st key (.decodeError p)) rfl ⟨_, hgs, rfl, rfl⟩
    exact ⟨hpath, hmiss, rfl, ⟨_, hgs, rfl, rfl⟩, hm.1, hm.2⟩

/-- Witness for C6: a failed synthesis at a concrete empty state. -/
theorem synthFailure_no_poison_witness :
    playPath ⟨[], [], none, [], [], []⟩ "k" = .synth ∧
    (runSynth ⟨[], [], none, [], [], []⟩ "k" .netError).audioCache.get? "k" = none ∧
    (runSynth ⟨[], [], none, [], [], []⟩ "k" .netError).durable = [] ∧
    playPath (runSynth ⟨[], [], none, [], [], []⟩ "k" .netError) "k" = .synth := by
  have h := synthFailure_no_poison ⟨[], [], none, [], [], []⟩ "k" .netError
    rfl rfl (Or.inr (Or.inl rfl))
  exact ⟨h.1, h.2.1, h.2.2.1, h.2.2.2.2.1⟩

/-- Claim C7 (confirmed): `handleStopAudio` on `key` releases `key`'s audio
handle and resets its session to `isPlaying=false`, `isPaused=false`,
`progress=0` (keeping the stored duration), while every other key's playback
session and audio handle — and the loading map, audio cache and durable
store — are left unchanged.  (The speech-synthesis cancel branch is dead
code: `speechSynthesisRef.current` is never assigned.) -/
theorem handleStopAudio_frame (st : PlaybackState) (key k' : String)
    (hne : k' ≠ key) :
    (handleStopAudio st key).playingStates.get? key =
      some ⟨false, false, 0,
        ((st.playingStates.get? key).getD defaultPlayState).duration⟩ ∧
    (handleStopAudio st key).audioRefs.get? key = none ∧
    (handleStopAudio st key).playingStates.get? k' = st.playingStates.get? k' ∧
    (handleStopAudio st key).audioRefs.get? k' = st.audioRefs.get? k' ∧
    (handleStopAudio st key).audioLoading = st.audioLoading ∧
    (handleStopAudio st key).audioCache = st.audioCache ∧
    (handleStopAudio st key).durable = st.durable := by
  refine ⟨?_, ?_, ?_, ?_, rfl, rfl, rfl⟩
  · simp [handleStopAudio, updatePlayingState, SMap.get?_insert_self]
  · simp [handleStopAudio, updatePlayingState, SMap.get?_erase_self]
  · simp [handleStopAudio, updatePlayingState, SMap.get?_insert_ne _ _ _ _ hne]
  · simp [handleStopAudio, SMap.get?_erase_ne _ _ _ hne]

/-- Witness for C7: stopping one of two concurrently playing periods leaves
the other period's session untouched. -/
theorem handleStopAudio_frame_witness :
    (handleStopAudio ⟨[("a", ⟨true, false, 30, 10⟩), ("b", ⟨true, false, 50, 20⟩)],
        [], none, [], [("a", ⟨"x", 3, false⟩), ("b", ⟨"y", 10, false⟩)], []⟩
        "a").playingStates.get? "a" = some ⟨false, false, 0, (10 : ℚ)⟩ ∧
    (handleStopAudio ⟨[("a", ⟨true, false, 30, 10⟩), ("b", ⟨true, false, 50, 20⟩)],
        [], none, [], [("a", ⟨"x", 3, false⟩), ("b", ⟨"y", 10, false⟩)], []⟩
        "a").audioRefs.get? "a" = none ∧
    (handleStopAudio ⟨[("a", ⟨true, false, 30, 10⟩), ("b", ⟨true, false, 50, 20⟩)],
        [], none, [], [("a", ⟨"x", 3, false⟩), ("b", ⟨"y", 10, false⟩)], []⟩
        "a").playingStates.get? "b" = some ⟨true, false, 50, (20 : ℚ)⟩ ∧
    (handleStopAudio ⟨[("a", ⟨true, false, 30, 10⟩), ("b", ⟨true, false, 50, 20⟩)],
        [], none, [], [("a", ⟨"x", 3, false⟩), ("b", ⟨"y", 10, false⟩)], []⟩
        "a").audioRefs.get? "b" = some ⟨"y", 10, false⟩ := by
  have h := handleStopAudio_frame
    ⟨[("a", ⟨true, false, 30, 10⟩), ("b", ⟨true, false, 50, 20⟩)],
      [], none, [], [("a", ⟨"x", 3, false⟩), ("b", ⟨"y", 10, false⟩)], []⟩
    "a" "b" (by decide)
  exact ⟨h.1, h.2.1, by rw [h.2.2.1]; rfl, by rw [h.2.2.2.1]; rfl⟩

/-- Claim C8 counterexample (refutes the claim as stated): a play request on
a key whose NarrationTrack is already cached does pass through the Loading
state — the cache-hit branch of `handlePlayAudio` sets the per-card loading
flag to `true` before constructing the handle from the cached payload, so
Loading is not entered only when no cached track exists. -/
theorem loadingOnCacheHit_violation :
    playPath ⟨[], [], none, [("k", ⟨"data", 10⟩)], [], [("k", ⟨"data", 10⟩)]⟩ "k"
      = .cacheHit ⟨"data", 10⟩ ∧
    (cacheHitStart ⟨[], [], none, [("k", ⟨"data", 10⟩)], [], [("k", ⟨"data", 10⟩)]⟩
        "k" ⟨"data", 10⟩).audioLoading.get? "k" = some true := by
  exact ⟨rfl, rfl⟩

/-- Claim C8 (amended): every fresh (non-resume) play request passes through
Loading: the cache-hit branch raises the loading flag before building the
handle from the cached payload — while still issuing zero network calls —
and clears it again when metadata resolves and the session reaches Playing;
the synthesis branch likewise raises it before its network call.  Only the
resume branch leaves the loading map untouched. -/
theorem loading_entered_amended (st : PlaybackState) (key : String)
    (e : CacheEntry)
    (hres : resumeCond st key = false)
    (hcache : st.audioCache.get? key = some e)
    (hurl : e.dataUrl ≠ "") :
    playPath st key = .cacheHit e ∧
    (cacheHitStart st key e).audioLoading.get? key = some true ∧
    playNetworkCalls st key = 0 ∧
    (playCachedOk st key e).audioLoading.get? key = none ∧
    (playCachedOk st key e).playingStates.get? key =
      some ⟨true, false, 0, e.duration⟩ ∧
    (∀ st' : PlaybackState, ∀ k, (playResume st' k).audioLoading = st'.audioLoading) ∧
    (∀ st' : PlaybackState, ∀ k, (synthStart st' k).audioLoading.get? k = some true) := by
  have hpath : playPath st key = .cacheHit e := by
    simp [playPath, hres, hcache, hurl]
  refine ⟨hpath, ?_, by simp [playNetworkCalls, hpath], ?_, ?_, ?_, ?_⟩
  · simp [cacheHitStart, SMap.get?_insert_self]
  · simp [playCachedOk, audioPlay, onCachedLoadedMetadata, cacheHitStart,
      SMap.get?_insert_self, SMap.get?_erase_self]
  · simp [playCachedOk, audioPlay, onCachedLoadedMetadata, cacheHitStart,
      updatePlayingState, SMap.get?_insert_self]
  · intro st' k
    cases h : st'.audioRefs.get? k <;> simp [playResume, audioPlay, h]
  · intro st' k
    simp [synthStart, SMap.get?_insert_self]

/-- Witness for the amended C8 at a concrete cached state. -/
theorem loading_entered_amended_witness :
    playPath ⟨[], [], none, [("p", ⟨"data", 7⟩)], [], [("p", ⟨"data", 7⟩)]⟩ "p"
      = .cacheHit ⟨"data", 7⟩ ∧
    (cacheHitStart ⟨[], [], none, [("p", ⟨"data", 7⟩)], [], [("p", ⟨"data", 7⟩)]⟩
        "p" ⟨"data", 7⟩).audioLoading.get? "p" = some true ∧
    playNetworkCalls ⟨[], [], none, [("p", ⟨"data", 7⟩)], [], [("p", ⟨"data", 7⟩)]⟩
      "p" = 0 ∧
    (playCachedOk ⟨[], [], none, [("p", ⟨"data", 7⟩)], [], [("p", ⟨"data", 7⟩)]⟩
        "p" ⟨"data", 7⟩).audioLoading.get? "p" = none := by
  have h := loading_entered_amended
    ⟨[], [], none, [("p", ⟨"data", 7⟩)], [], [("p", ⟨"data", 7⟩)]⟩ "p"
    ⟨"data", 7⟩ rfl rfl (by decide)
  exact ⟨h.1, h.2.1, h.2.2.1, h.2.2.2.1⟩

/-- Claim C9 (confirmed): for every seek or drag gesture the percentage
written into the session's progress is the clamped
`max(0, min(100, (x / rect.width) * 100))` — in `[0, 100]` even when the
pointer lies outside the bar — and the audio position is set to
`(percent / 100) * duration`; so a seek never moves the stored progress out
of `[0, 100]`. -/
theorem seek_progress_clamped (st : PlaybackState) (key : String)
    (clientX rectLeft rectWidth : ℚ) (a : AudioEl) (s : PlayState)
    (ha : st.audioRefs.get? key = some a)
    (hs : st.playingStates.get? key = some s)
    (hd : s.duration ≠ 0) :
    (0 ≤ clampPercent (clientX - rectLeft) rectWidth ∧
      clampPercent (clientX - rectLeft) rectWidth ≤ 100) ∧
    (handleSeek st key clientX rectLeft rectWidth).playingStates.get? key =
      some { s with progress := clampPercent (clientX - rectLeft) rectWidth } ∧
    (handleSeek st key clientX rectLeft rectWidth).audioRefs.get? key =
      some { a with currentTime :=
        clampPercent (clientX - rectLeft) rectWidth / 100 * s.duration } ∧
    (st.isSeeking = some key →
      (handleMouseMove st key clientX rectLeft rectWidth).playingStates.get? key =
        some { s with progress := clampPercent (clientX - rectLeft) rectWidth }) := by
  refine ⟨⟨le_max_left _ _, max_le (by norm_num) (min_le_left _ _)⟩, ?_, ?_, ?_⟩
  · simp [handleSeek, ha, hs, hd, updatePlayingState, SMap.get?_insert_self]
  · simp [handleSeek, ha, hs, hd, SMap.get?_insert_self]
  · intro hseek
    simp [handleMouseMove, hseek, ha, hs, hd, updatePlayingState,
      SMap.get?_insert_self]

/-- Witness for C9: a pointer far beyond the right edge of the bar
(`clientX = 250` on a bar of width 100) clamps to exactly 100. -/
theorem seek_progress_clamped_witness :
    (0 ≤ clampPercent ((250 : ℚ) - 0) 100 ∧ clampPercent ((250 : ℚ) - 0) 100 ≤ 100) ∧
    (handleSeek ⟨[("k", ⟨true, false, 0, 10⟩)], [], none, [],
        [("k", ⟨"d", 0, false⟩)], []⟩ "k" 250 0 100).playingStates.get? "k" =
      some { (⟨true, false, 0, 10⟩ : PlayState) with
        progress := clampPercent ((250 : ℚ) - 0) 100 } ∧
    clampPercent ((250 : ℚ) - 0) 100 = 100 := by
  have h := seek_progress_clamped
    ⟨[("k", ⟨true, false, 0, 10⟩)], [], none, [], [("k", ⟨"d", 0, false⟩)], []⟩
    "k" 250 0 100 ⟨"d", 0, false⟩ ⟨true, false, 0, 10⟩ rfl rfl (by norm_num)
  refine ⟨h.1, h.2.1, ?_⟩
  simp [clampPercent, min_def, max_def]
  norm_num

/-- Claim C4 counterexample (refutes the claim as stated): the `timeupdate`
listener's suppression check `isSeeking !== periodKey` compares against the
`isSeeking` value captured by the render closure in which the listener was
registered (here `null`, playback having started outside any gesture), not
the live one.  So with the seek-suppression window for "k" active
(`isSeeking = some "k"` after `seek` wrote 40), a position-update event does
overwrite the progress — with the live position `4.05 s` of a `10 s` track,
i.e. `40.5`. -/
theorem seekSuppression_violation :
    let st0 : PlaybackState := ⟨[("k", ⟨true, false, 0, 10⟩)], [], none,
      [("k", ⟨"d", 10⟩)], [("k", ⟨"d", 0, false⟩)], [("k", ⟨"d", 10⟩)]⟩
    let st1 := handleSeek st0 "k" 40 0 100
    let st2 := onTimeUpdate none "k" (81 / 20) 10 st1
    st1.isSeeking = some "k" ∧
    ((st1.playingStates.get? "k").getD defaultPlayState).progress = 40 ∧
    ((st2.playingStates.get? "k").getD defaultPlayState).progress = 81 / 2 ∧
    ¬ ((81 : ℚ) / 2 = 40) := by
  refine ⟨?_, ?_, ?_, by norm_num⟩
  · norm_num [handleSeek, clampPercent, updatePlayingState, SMap.get?,
      SMap.insert, min_def, max_def]
  · norm_num [handleSeek, clampPercent, updatePlayingState, SMap.get?,
      SMap.insert, defaultPlayState, min_def, max_def]
  · norm_num [handleSeek, onTimeUpdate, clampPercent, updatePlayingState,
      SMap.get?, SMap.insert, defaultPlayState, min_def, max_def]

/-- Claim C4 (amended): the suppression compares against the `isSeeking`
value captured when the `timeupdate` listener was registered, so it only
suppresses events of a listener registered during a gesture on the same
key; a listener registered outside the gesture does overwrite the progress
during the active window — but with `(currentTime / duration) * 100` read
live from the handle, and since the seek itself already moved the handle to
`(percent / 100) * duration`, any event with `currentTime` at or past that
position writes a value at or above the sought percentage: the progress
never reverts below the sought value. -/
theorem seekSuppression_amended (st : PlaybackState) (key : String)
    (captured : Option String) (clientX rectLeft rectWidth ct : ℚ)
    (a : AudioEl) (s : PlayState)
    (ha : st.audioRefs.get? key = some a)
    (hs : st.playingStates.get? key = some s)
    (hd : 0 < s.duration)
    (hcap : captured ≠ some key)
    (hct : clampPercent (clientX - rectLeft) rectWidth / 100 * s.duration ≤ ct) :
    (handleSeek st key clientX rectLeft rectWidth).isSeeking = some key ∧
    onTimeUpdate (some key) key ct s.duration
        (handleSeek st key clientX rectLeft rectWidth) =
      handleSeek st key clientX rectLeft rectWidth ∧
    ((SMap.get? (onTimeUpdate captured key ct s.duration
        (handleSeek st key clientX rectLeft rectWidth)).playingStates key).getD
      defaultPlayState).progress = ct / s.duration * 100 ∧
    clampPercent (clientX - rectLeft) rectWidth ≤ ct / s.duration * 100 := by
  refine ⟨?_, ?_, ?_, ?_⟩
  · simp [handleSeek, ha, hs, hd.ne']
  · simp [onTimeUpdate]
  · simp [onTimeUpdate, hcap, hd.ne', handleSeek, ha, hs, updatePlayingState,
      SMap.get?_insert_self]
  · have h100 : (0 : ℚ) < 100 := by norm_num
    rw [div_mul_eq_mul_div, le_div_iff₀ hd]
    rw [div_mul_eq_mul_div, div_le_iff₀ h100] at hct
    linarith

/-- Witness for the amended C4: concrete seek to 40% of a 10-second track,
then a position-update at 4.05 s from a listener registered outside the
gesture: the suppression predicate of that listener does not fire, the
progress becomes 40.5, and it is not below the sought 40. -/
theorem seekSuppression_amended_witness :
    (handleSeek ⟨[("k", ⟨true, false, 0, 10⟩)], [], none, [("k", ⟨"d", 10⟩)],
        [("k", ⟨"d", 0, false⟩)], [("k", ⟨"d", 10⟩)]⟩ "k" 40 0 100).isSeeking
      = some "k" ∧
    ((SMap.get? (onTimeUpdate none "k" (81 / 20)
        (⟨true, false, 0, (10 : ℚ)⟩ : PlayState).duration
        (handleSeek ⟨[("k", ⟨true, false, 0, 10⟩)], [], none, [("k", ⟨"d", 10⟩)],
          [("k", ⟨"d", 0, false⟩)], [("k", ⟨"d", 10⟩)]⟩ "k" 40 0 100)).playingStates
        "k").getD defaultPlayState).progress =
      81 / 20 / (⟨true, false, 0, (10 : ℚ)⟩ : PlayState).duration * 100 ∧
    clampPercent ((40 : ℚ) - 0) 100 ≤
      81 / 20 / (⟨true, false, 0, (10 : ℚ)⟩ : PlayState).duration * 100 := by
  have h := seekSuppression_amended
    ⟨[("k", ⟨true, false, 0, 10⟩)], [], none, [("k", ⟨"d", 10⟩)],
      [("k", ⟨"d", 0, false⟩)], [("k", ⟨"d", 10⟩)]⟩ "k" none 40 0 100 (81 / 20)
    ⟨"d", 0, false⟩ ⟨true, false, 0, 10⟩ rfl rfl (by norm_num)
    (by simp)
    (by norm_num [clampPercent, min_def, max_def])
  exact ⟨h.1, h.2.2.1, h.2.2.2⟩

/-- Claim C10 (confirmed): if the persisted `localStorage.audioCache` record
is absent, the mount-time load step keeps the initial empty in-memory cache;
if it is present but `JSON.parse` throws, the catch swallows the error and
the cache is likewise empty — nothing propagates out of the effect — and a
subsequent play request on any key finds no cached track and takes the
synthesis branch (one network call), treating the key as uncached. -/
theorem audioCacheLoad_failure_safe
    (parse : String → Except String (List (String × CacheEntry)))
    (raw msg k : String) (st : PlaybackState)
    (hfail : parse raw = .error msg)
    (hcache : st.audioCache = loadAudioCacheOnMount (some raw) parse)
    (hres : resumeCond st k = false) :
    loadAudioCacheOnMount none parse = [] ∧
    loadAudioCacheOnMount (some raw) parse = [] ∧
    SMap.get? (loadAudioCacheOnMount (some raw) parse) k = none ∧
    playPath st k = .synth ∧
    playNetworkCalls st k = 1 := by
  have h2 : loadAudioCacheOnMount (some raw) parse = [] := by
    simp [loadAudioCacheOnMount, hfail]
  have h4 : playPath st k = .synth := by
    simp [playPath, hres, hcache, h2, SMap.get?]
  exact ⟨rfl, h2, by simp [h2, SMap.get?], h4, by simp [playNetworkCalls, h4]⟩

/-- Witness for C10: a concrete corrupted record. -/
theorem audioCacheLoad_failure_safe_witness :
    loadAudioCacheOnMount none
      (fun _ => (.error "SyntaxError: Unexpected token" :
        Except String (List (String × CacheEntry)))) = [] ∧
    loadAudioCacheOnMount (some "not-json")
      (fun _ => (.error "SyntaxError: Unexpected token" :
        Except String (List (String × CacheEntry)))) = [] ∧
    playPath ⟨[], [], none,
      loadAudioCacheOnMount (some "not-json")
        (fun _ => (.error "SyntaxError: Unexpected token" :
          Except String (List (String × CacheEntry)))), [], []⟩ "k" = .synth := by
  have h := audioCacheLoad_failure_safe
    (fun _ => (.error "SyntaxError: Unexpected token" :
      Except String (List (String × CacheEntry))))
    "not-json" "SyntaxError: Unexpected token" "k"
    ⟨[], [], none,
      loadAudioCacheOnMount (some "not-json")
        (fun _ => (.error "SyntaxError: Unexpected token" :
          Except String (List (String × CacheEntry)))), [], []⟩
    rfl rfl rfl
  exact ⟨h.1, h.2.1, h.2.2.2.1⟩

/-- Witness for the amended C3 at a concrete failure message. -/
theorem fetchFailure_amended_witness :
    SMap.get? (applyFetchOutcome [] "k" (.netError "fetch failed")) "k" =
      some ⟨netErrorText "fetch failed", false, false⟩ ∧
    netErrorText "fetch failed" ≠ "" ∧
    (checkAndMark (applyFetchOutcome [] "k" (.netError "fetch failed")) "k").1 = false ∧
    needsSummary (applyFetchOutcome [] "k" (.netError "fetch failed")) "k" = false := by
  have h := fetchFailure_amended [] "k" "fetch failed"
  exact ⟨h.1, h.2.1, h.2.2.1, h.2.2.2.1⟩
